import Mathlib

/-!
Shallow embedding of `main.py` of the `url-email-extractor` repository.

The embedding covers the message-to-result pipeline: the two regular
expressions and `extract_urls` / `extract_emails`, payload and subject
decoding, `get_email_body`, sender-address parsing, reply composition, and
the per-message orchestration of `process_emails` (reply send and
seen-marking events), including the batch-level exception behavior.
-/

set_option maxRecDepth 16384

namespace UrlEmailExtractor

/-- The fragment of Python `re` used by `URL_REGEX` and `EMAIL_REGEX`:
character classes, concatenation, ordered alternation and greedy star
(`+`, `?`, literals and bounded repetition are derived forms). -/
inductive Regex where
  | eps : Regex
  | cls : (Char → Bool) → Regex
  | cat : Regex → Regex → Regex
  | alt : Regex → Regex → Regex
  | star : Regex → Regex

/-- Greedy `r+`. -/
def rplus (r : Regex) : Regex := .cat r (.star r)

/-- Greedy `r?` (try `r` first, then the empty alternative). -/
def ropt (r : Regex) : Regex := .alt r .eps

/-- A literal character. -/
def rchar (c : Char) : Regex := .cls (fun d => d == c)

/-- A literal string. -/
def rstr (s : String) : Regex := s.toList.foldr (fun c acc => .cat (rchar c) acc) .eps

/-- Greedy `r{0,n}`. -/
def repAtMost : Nat → Regex → Regex
  | 0, _ => .eps
  | n + 1, r => ropt (.cat r (repAtMost n r))

/-- All ways of matching `r` against a prefix of `s`, as the list of
remaining suffixes in Python backtracking priority order (greedy
quantifiers try longer matches first, alternation tries the left branch
first), so the head is the suffix left by the match Python's engine picks.
`fuel` bounds recursion depth; a star iteration only continues on strictly
consumed input, which agrees with Python here because no starred
subexpression of either regex below matches the empty string. -/
def mmatch : Nat → Regex → List Char → List (List Char)
  | 0, _, _ => []
  | _ + 1, .eps, s => [s]
  | _ + 1, .cls _, [] => []
  | _ + 1, .cls p, c :: s => if p c then [s] else []
  | fuel + 1, .cat a b, s => (mmatch fuel a s).flatMap (mmatch fuel b)
  | fuel + 1, .alt a b, s => mmatch fuel a s ++ mmatch fuel b s
  | fuel + 1, .star r, s =>
      ((mmatch fuel r s).filter (fun t => t.length < s.length)).flatMap
        (mmatch fuel (.star r)) ++ [s]

/-- Model of `re.findall`: scan left to right; at each position take the engine's
first match; on a match emit the matched characters and continue right
after it, otherwise advance one character.  (Neither regex used here can
match the empty string; a zero-width match is treated as no match.) -/
def findAll (mf : Nat) (r : Regex) : Nat → List Char → List (List Char)
  | 0, _ => []
  | _ + 1, [] => []
  | fuel + 1, c :: rest =>
    match (mmatch mf r (c :: rest)).head? with
    | some s' =>
      let k := (c :: rest).length - s'.length
      if k = 0 then findAll mf r fuel rest
      else (c :: rest).take k :: findAll mf r fuel s'
    | none => findAll mf r fuel rest

/-- ASCII letter, the literal range `[a-zA-Z]`. -/
def isAsciiAlpha (c : Char) : Bool := ('a' ≤ c && c ≤ 'z') || ('A' ≤ c && c ≤ 'Z')

/-- ASCII digit, Python `\d` restricted to ASCII input. -/
def isAsciiDigit (c : Char) : Bool := '0' ≤ c && c ≤ '9'

/-- The class `[a-zA-Z0-9]`. -/
def isAlnumCh (c : Char) : Bool := isAsciiAlpha c || isAsciiDigit c

/-- Python `\s`, restricted to its ASCII members. -/
def isSpaceCh (c : Char) : Bool :=
  c == ' ' || c == '\t' || c == '\n' || c == '\r' || c == '\x0b' || c == '\x0c'

/-- The local part class `[a-zA-Z0-9._%+-]` of `EMAIL_REGEX`. -/
def localCls (c : Char) : Bool :=
  isAlnumCh c || c == '.' || c == '_' || c == '%' || c == '+' || c == '-'

/-- The class `[a-zA-Z0-9.-]` (also `[a-zA-Z0-9.\-]` in `URL_REGEX`). -/
def domainCls (c : Char) : Bool := isAlnumCh c || c == '.' || c == '-'

/-- The class `[^\s()]`. -/
def pathCls (c : Char) : Bool := !(isSpaceCh c || c == '(' || c == ')')

/-- The repetition `[a-zA-Z]{2,}` as `alpha · alpha · alpha*`. -/
def alphaTwoPlus : Regex := .cat (.cls isAsciiAlpha) (rplus (.cls isAsciiAlpha))

/-- The source regex `EMAIL_REGEX = [a-zA-Z0-9._%+-]+@[a-zA-Z0-9.-]+\.[a-zA-Z]{2,}`. -/
def EMAIL_REGEX : Regex :=
  .cat (rplus (.cls localCls))
    (.cat (rchar '@')
      (.cat (rplus (.cls domainCls))
        (.cat (rchar '.') alphaTwoPlus)))

/-- The group `(?:https?://|www\.)`. -/
def urlSchemePart : Regex :=
  .alt (.cat (rstr "http") (.cat (ropt (rchar 's')) (rstr "://"))) (rstr "www.")

/-- The group `(?:[a-zA-Z0-9.\-]+(?:\.[a-zA-Z]{2,})?|localhost)`. -/
def urlHostPart : Regex :=
  .alt (.cat (rplus (.cls domainCls)) (ropt (.cat (rchar '.') alphaTwoPlus)))
    (rstr "localhost")

/-- The group `(?::\d{1,5})?`. -/
def urlPortPart : Regex :=
  ropt (.cat (rchar ':') (.cat (.cls isAsciiDigit) (repAtMost 4 (.cls isAsciiDigit))))

/-- The group `(?:/[^\s()]*)?`. -/
def urlPathPart : Regex := ropt (.cat (rchar '/') (.star (.cls pathCls)))

/-- The group `(?:\([^\s()]*\))*`. -/
def urlParensPart : Regex :=
  .star (.cat (rchar '(') (.cat (.star (.cls pathCls)) (rchar ')')))

/-- The source regex `URL_REGEX`, the concatenation of its five groups. -/
def URL_REGEX : Regex :=
  .cat urlSchemePart (.cat urlHostPart (.cat urlPortPart (.cat urlPathPart urlParensPart)))

/-- Matcher fuel ample for either regex on a string of length `n` (fuel only
bounds recursion depth, it does not change any result that fits in it). -/
def matchFuel (n : Nat) : Nat := (n + 1) * 64

/-- Model of `re.findall(regex, text)` for the regexes above. -/
def pyFindall (r : Regex) (text : String) : List String :=
  (findAll (matchFuel text.length) r (text.length + 1) text.toList).map (fun l => ⟨l⟩)

/-- Python `<` on lists of characters: strict lexicographic by code point. -/
def listLt : List Char → List Char → Bool
  | [], [] => false
  | [], _ :: _ => true
  | _ :: _, [] => false
  | a :: as, b :: bs =>
    if a.toNat < b.toNat then true
    else if b.toNat < a.toNat then false
    else listLt as bs

/-- Python `<` on strings (code point lexicographic order). -/
def strLtB (a b : String) : Bool := listLt a.toList b.toList

/-- Python `<=` on strings: `a <= b` iff not `b < a`. -/
def strLeB (a b : String) : Bool := !(listLt b.toList a.toList)

/-- The order `sorted` sorts by, as a relation. -/
def pyLe (a b : String) : Prop := strLeB a b = true

instance (a b : String) : Decidable (pyLe a b) := by unfold pyLe; infer_instance

/-- Python `sorted(list(set(xs)))` on strings: the distinct elements in
ascending lexicographic (code point) order.  (Insertion sort produces the
same list as Python's sort here: on pairwise-distinct elements of a linear
order the sorted permutation is unique.) -/
def sortedSet (l : List String) : List String :=
  List.insertionSort pyLe l.dedup

/-- Source function `extract_urls` (`main.py` lines 98-103); `url.toList.contains '.'` models
the Python substring test `'.' in url` for the one-character pattern. -/
def extract_urls (text : String) : List String :=
  let found_urls := pyFindall URL_REGEX text
  let cleaned_urls := found_urls.filter (fun url => url.length > 5 && url.toList.contains '.')
  sortedSet cleaned_urls

/-- Source function `extract_emails` (`main.py` lines 105-108). -/
def extract_emails (text : String) : List String :=
  let found_emails := pyFindall EMAIL_REGEX text
  sortedSet found_emails

/-! ### Charset decoding (Python `bytes.decode(name, errors="ignore")`) -/

/-- A UTF-8 continuation byte. -/
def isContByte (b : Nat) : Bool := 0x80 ≤ b && b < 0xC0

/-- Fuelled worker for `utf8DecodeIgnore`: well-formed sequences decode to
their code point, anything invalid is skipped rather than raised.  Every
step consumes at least one byte, so fuel equal to the list length is always
enough. -/
def utf8Go : Nat → List Nat → List Char
  | 0, _ => []
  | _, [] => []
  | fuel + 1, b :: bs =>
    if b < 0x80 then Char.ofNat b :: utf8Go fuel bs
    else if 0xC2 ≤ b && b < 0xE0 then
      match bs with
      | [] => []
      | b2 :: bs2 =>
        if isContByte b2 then
          Char.ofNat ((b - 0xC0) * 64 + (b2 - 0x80)) :: utf8Go fuel bs2
        else utf8Go fuel (b2 :: bs2)
    else if 0xE0 ≤ b && b < 0xF0 then
      match bs with
      | b2 :: b3 :: bs3 =>
        if isContByte b2 && isContByte b3 then
          let cp := (b - 0xE0) * 4096 + (b2 - 0x80) * 64 + (b3 - 0x80)
          if 0x800 ≤ cp && !(0xD800 ≤ cp && cp < 0xE000) then
            Char.ofNat cp :: utf8Go fuel bs3
          else utf8Go fuel (b2 :: b3 :: bs3)
        else utf8Go fuel (b2 :: b3 :: bs3)
      | other => utf8Go fuel other
    else if 0xF0 ≤ b && b < 0xF5 then
      match bs with
      | b2 :: b3 :: b4 :: bs4 =>
        if isContByte b2 && isContByte b3 && isContByte b4 then
          let cp := (b - 0xF0) * 262144 + (b2 - 0x80) * 4096 + (b3 - 0x80) * 64 + (b4 - 0x80)
          if 0x10000 ≤ cp && cp < 0x110000 then
            Char.ofNat cp :: utf8Go fuel bs4
          else utf8Go fuel (b2 :: b3 :: b4 :: bs4)
        else utf8Go fuel (b2 :: b3 :: b4 :: bs4)
      | other => utf8Go fuel other
    else utf8Go fuel bs

/-- UTF-8 decoding with `errors="ignore"`. -/
def utf8DecodeIgnore (l : List Nat) : List Char := utf8Go l.length l

/-- Latin-1 decoding: each byte is its own code point (total). -/
def latin1Decode (p : List Nat) : List Char := p.map (fun b => Char.ofNat (b % 256))

/-- ASCII decoding with `errors="ignore"`: bytes above `0x7F` are skipped. -/
def asciiDecodeIgnore (p : List Nat) : List Char :=
  (p.filter (fun b => b < 0x80)).map Char.ofNat

/-- ASCII lowercasing, modelling Python codec-name normalization. -/
def chLower (c : Char) : Char :=
  if 'A' ≤ c && c ≤ 'Z' then Char.ofNat (c.toNat + 32) else c

/-- Lowercased codec name. -/
def lowerName (s : String) : String := ⟨s.toList.map chLower⟩

/-- Python `bytes.decode(name, errors="ignore")`: with `errors="ignore"` no
`UnicodeDecodeError` can be raised, so the only failure (`none`) is the
`LookupError` raised when the encoding name is unknown. -/
def decodeBytes (name : String) (p : List Nat) : Option String :=
  let n := lowerName name
  if n ∈ ["utf-8", "utf8", "utf_8", "u8", "utf", "cp65001"] then
    some ⟨utf8DecodeIgnore p⟩
  else if n ∈ ["latin-1", "latin1", "latin_1", "iso-8859-1", "iso8859-1", "iso8859_1",
      "iso_8859_1", "8859", "cp819", "latin", "l1"] then
    some ⟨latin1Decode p⟩
  else if n ∈ ["ascii", "us-ascii", "us_ascii", "646"] then
    some ⟨asciiDecodeIgnore p⟩
  else none

/-! ### Message data model -/

/-- One body part of a parsed message: content type, the
`Content-Disposition` header (absent: `none`), declared charset (absent:
`none`), and the transfer-decoded payload bytes (`get_payload(decode=True)`). -/
structure MsgPart where
  ctype : String
  cdispo : Option String
  charset : Option String
  payload : List Nat
  deriving DecidableEq

/-- A message body: a single part (`is_multipart()` false) or the ordered
parts visited by `msg.walk()` (the `multipart/*` container itself is never
`text/plain`, so it is omitted; nested containers are flattened). -/
inductive MsgBody where
  | single (p : MsgPart) : MsgBody
  | multi (parts : List MsgPart) : MsgBody
  deriving DecidableEq

/-- One segment of `email.header.decode_header`: undecoded bytes with an
optional charset, or an already-plain string. -/
inductive SubjSeg where
  | bytesSeg (payload : List Nat) (charset : Option String) : SubjSeg
  | strSeg (s : String) : SubjSeg
  deriving DecidableEq

/-- A parsed message as the pipeline sees it: the raw `From` header, the
`decode_header` segmentation of the Subject header (`none`: header absent),
and the body. -/
structure EmailMsg where
  fromH : String
  subjectH : Option (List SubjSeg)
  body : MsgBody
  deriving DecidableEq

/-! ### Text Resolver (`get_email_body`, lines 56-76) -/

/-- Model of `str(part.get('Content-Disposition'))`: Python renders an absent header
(`None`) as the string `"None"`. -/
def cdispoStr : Option String → String
  | none => "None"
  | some s => s

/-- Python `needle in haystack` on strings: contiguous substring test. -/
def isSubstrOf : List Char → List Char → Bool
  | n, [] => n.isEmpty
  | n, c :: rest => List.isPrefixOf n (c :: rest) || isSubstrOf n rest

/-- The part-selection test of line 63:
`ctype == 'text/plain' and 'attachment' not in cdispo`. -/
def isPlainNonAttachment (p : MsgPart) : Bool :=
  p.ctype == "text/plain" && !(isSubstrOf "attachment".toList (cdispoStr p.cdispo).toList)

/-- Payload decoding with the fallback of lines 64-69 (and 71-75): declared
charset, `utf-8` when none is declared, and on a raised `LookupError` the
`latin-1` decode of the `except` branch, which is total. -/
def decodePayload (charset : Option String) (payload : List Nat) : String :=
  match decodeBytes (charset.getD "utf-8") payload with
  | some s => s
  | none => ⟨latin1Decode payload⟩

/-- Source function `get_email_body` (lines 56-76): for a multipart body, the first
`text/plain` non-attachment part in walk order, decoded; `""` when no part
qualifies.  For a single-part body, the decoded payload. -/
def get_email_body (m : EmailMsg) : String :=
  match m.body with
  | .multi parts =>
    match parts.find? isPlainNonAttachment with
    | some part => decodePayload part.charset part.payload
    | none => ""
  | .single part => decodePayload part.charset part.payload

/-! ### Subject decoding (lines 139-152) -/

/-- Decoding of one `decode_header` segment (loop body, lines 143-148):
bytes are decoded with the declared charset or `utf-8`; `none` models the
exception raised for an unknown charset. -/
def segDecode : SubjSeg → Option String
  | .bytesSeg p cs => decodeBytes (cs.getD "utf-8") p
  | .strSeg s => some s

/-- The `decoded_parts` loop of lines 142-148: decode the segments in
order, collecting the results; `none` models an exception escaping the
loop as soon as any single segment raises. -/
def decodeSegs : List SubjSeg → Option (List String)
  | [] => some []
  | sg :: segs =>
    match segDecode sg with
    | none => none
    | some s =>
      match decodeSegs segs with
      | none => none
      | some rest => some (s :: rest)

/-- Subject decoding, lines 139-152.  The single `try` wraps the
`decode_header` call, the whole segment loop and the join, and its handler
only runs `pass`, so any raised exception (an unknown charset in any
segment, or `decode_header(None)` for an absent header) leaves the initial
`subject = ""`. -/
def decode_subject : Option (List SubjSeg) → String
  | none => ""
  | some segs =>
    match decodeSegs segs with
    | some decoded_parts => String.join decoded_parts
    | none => ""

/-! ### Sender address, reply composition and per-message orchestration -/

/-- The characters before the first `'>'` in `l`, provided no newline comes
first (`.` in the pattern `<(.*?)>` does not match a newline); `none` when
no such `'>'` exists at this start position. -/
def untilGt : List Char → Option (List Char)
  | [] => none
  | c :: rest =>
    if c == '>' then some []
    else if c == '\n' then none
    else (untilGt rest).map (fun l => c :: l)

/-- Group 1 of the leftmost match of `re.search(r'<(.*?)>', s)` (line 134):
the content of the first angle-bracket pair; later `'<'` starts are tried
when an earlier one has no closing `'>'`. -/
def angleGroup : List Char → Option (List Char)
  | [] => none
  | c :: rest =>
    if c == '<' then
      match untilGt rest with
      | some inner => some inner
      | none => angleGroup rest
    else angleGroup rest

/-- Sender extraction, lines 133-135: the bracketed address when the
pattern matches, otherwise the raw `From` header. -/
def parseSender (fromH : String) : String :=
  match angleGroup fromH.toList with
  | some inner => ⟨inner⟩
  | none => fromH

/-- Python `str.strip()` (default whitespace set, ASCII members). -/
def pyStrip (s : String) : String :=
  ⟨(((s.toList.dropWhile isSpaceCh).reverse.dropWhile isSpaceCh).reverse)⟩

/-- The closing signature appended to every extraction reply (line 199). -/
def closingSig : String := "\n\n---\nPowered by YourExtractor.your-subdomain.com"

/-- Reply body construction, lines 180-199: greeting, a URL section when
URLs were found, an email section when addresses were found, the fixed
"nothing found" message plus usage tip when both lists are empty, joined
with newlines and terminated by the closing signature. -/
def compose_body (extracted_urls extracted_emails : List String) : String :=
  let response_parts : List String :=
    ["Hello from your Extractor Bot!", "\nHere are the extracted items from your text:\n"]
    ++ (if extracted_urls.isEmpty then [] else
          "\n--- Found URLs ---" :: (extracted_urls.map (fun url => "- " ++ url) ++ ["\n"]))
    ++ (if extracted_emails.isEmpty then [] else
          "\n--- Found Email Addresses ---" ::
            (extracted_emails.map (fun email => "- " ++ email) ++ ["\n"]))
    ++ (if extracted_urls.isEmpty && extracted_emails.isEmpty then
          ["\nNo URLs or email addresses were found in your text.",
           "\nTips: Ensure URLs start with http:// or https:// (or www.) and email addresses are in standard format like user@domain.com."]
        else [])
  String.intercalate "\n" response_parts ++ closingSig

/-- The observable collaborator requests the per-message unit issues: a
reply-send (`send_email`) and a seen-marking (`add_flags`). -/
inductive Event where
  | send (recipient subject body : String) : Event
  | markSeen (uid : Nat) : Event
  deriving DecidableEq

/-- The fixed body of the no-text error reply (line 205). -/
def noTextBody : String :=
  "Please send an email with the text you want to process in the body or subject. I couldn\x27t find any text to extract from."

/-- The loop body of `process_emails` for one message (lines 129-207),
parameterized by the two extraction functions so that independence from
them is expressible: resolve the body, decode the subject, choose the
trimmed body, else the trimmed subject, else nothing; with text, send the
composed extraction reply and mark seen; with no text, send the fixed
error reply and mark seen.  (`send_email` cannot raise: it catches every
exception internally, lines 90-92.) -/
def processMessageWith (eu ee : String → List String) (uid : Nat) (m : EmailMsg) :
    List Event :=
  let sender_email := parseSender m.fromH
  let subject := decode_subject m.subjectH
  let body := get_email_body m
  let text_to_process :=
    if (pyStrip body).isEmpty && !(pyStrip subject).isEmpty then pyStrip subject
    else pyStrip body
  if !text_to_process.isEmpty then
    [Event.send sender_email "Your Extracted URLs & Emails"
        (compose_body (eu text_to_process) (ee text_to_process)),
     Event.markSeen uid]
  else
    [Event.send sender_email "Error: No Text Provided" noTextBody,
     Event.markSeen uid]

/-- The per-message unit with the real extractors. -/
def processMessage : Nat → EmailMsg → List Event :=
  processMessageWith extract_urls extract_emails

/-- Whole-batch behavior of `process_emails` over the fetched unread
messages in order.  `seenFails uid = true` means the collaborator call
`imap_server.add_flags(uid, ...)` raises for that message (standing for
the class of mid-loop collaborator failures).  The loop body has no local
exception handler, so a raised `add_flags` happens after that message's
send, produces no seen-marking effect, and aborts the loop: control jumps
to the outer `except` (lines 213-215) and no later message is processed.
Events of earlier, completed messages stand. -/
def process_emails (seenFails : Nat → Bool) : List (Nat × EmailMsg) → List Event
  | [] => []
  | (uid, m) :: rest =>
    if seenFails uid then (processMessage uid m).dropLast
    else processMessage uid m ++ process_emails seenFails rest

/-! ### Order facts about the lexicographic comparison -/

theorem chNat_inj {a b : Char} (h : a.toNat = b.toNat) : a = b :=
  Char.ext (UInt32.toNat.inj h)

theorem listLt_irrefl : ∀ a : List Char, listLt a a = false
  | [] => rfl
  | a :: as => by simp [listLt, listLt_irrefl as]

theorem listLt_trans :
    ∀ {a b c : List Char}, listLt a b = true → listLt b c = true → listLt a c = true
  | [], _ :: _, _ :: _, _, _ => rfl
  | [], [], _, h, _ => by simp [listLt] at h
  | [], _ :: _, [], _, h => by simp [listLt] at h
  | _ :: _, [], _, h, _ => by simp [listLt] at h
  | _ :: _, _ :: _, [], _, h => by simp [listLt] at h
  | a :: as, b :: bs, c :: cs, h1, h2 => by
    simp only [listLt] at h1 h2 ⊢
    rcases Nat.lt_trichotomy a.toNat c.toNat with h | h | h
    · simp [h]
    · have hnlt : ¬a.toNat < c.toNat := by omega
      have hngt : ¬c.toNat < a.toNat := by omega
      simp only [hnlt, hngt, if_false]
      split_ifs at h1 h2 with hab hba hbc hcb <;> try omega
      exact listLt_trans h1 h2
    · exfalso
      split_ifs at h1 h2 with hab hba hbc hcb <;> omega

theorem listLt_trichotomy :
    ∀ a b : List Char, a = b ∨ listLt a b = true ∨ listLt b a = true
  | [], [] => Or.inl rfl
  | [], _ :: _ => Or.inr (Or.inl rfl)
  | _ :: _, [] => Or.inr (Or.inr rfl)
  | a :: as, b :: bs => by
    rcases Nat.lt_trichotomy a.toNat b.toNat with h | h | h
    · exact Or.inr (Or.inl (by simp [listLt, h]))
    · have heq : a = b := chNat_inj h
      subst heq
      rcases listLt_trichotomy as bs with h' | h' | h'
      · exact Or.inl (by rw [h'])
      · exact Or.inr (Or.inl (by simp [listLt, h']))
      · exact Or.inr (Or.inr (by simp [listLt, h']))
    · exact Or.inr (Or.inr (by simp [listLt, h]))

theorem listLt_asymm {a b : List Char} (h : listLt a b = true) : listLt b a = false := by
  by_contra hc
  have hba : listLt b a = true := by revert hc; cases listLt b a <;> simp
  have := listLt_trans h hba
  rw [listLt_irrefl] at this
  cases this

instance : IsTrans String pyLe where
  trans a b c hab hbc := by
    simp only [pyLe, strLeB, Bool.not_eq_true'] at hab hbc ⊢
    by_contra hac
    have hac' : listLt c.toList a.toList = true := by
      revert hac; cases listLt c.toList a.toList <;> simp
    rcases listLt_trichotomy b.toList c.toList with h | h | h
    · rw [h, hac'] at hab
      exact Bool.noConfusion hab
    · rw [listLt_trans h hac'] at hab
      exact Bool.noConfusion hab
    · rw [h] at hbc
      exact Bool.noConfusion hbc

instance : IsTotal String pyLe where
  total a b := by
    simp only [pyLe, strLeB, Bool.not_eq_true']
    rcases listLt_trichotomy a.toList b.toList with h | h | h
    · left; rw [h, listLt_irrefl]
    · left; exact listLt_asymm h
    · right; exact listLt_asymm h

theorem strLtB_of_le_of_ne {a b : String} (hle : pyLe a b) (hne : a ≠ b) :
    strLtB a b = true := by
  simp only [pyLe, strLeB, Bool.not_eq_true'] at hle
  rcases listLt_trichotomy a.toList b.toList with h | h | h
  · exact absurd (String.toList_inj.mp h) hne
  · exact h
  · rw [h] at hle; cases hle

theorem sortedSet_mem {a : String} {l : List String} : a ∈ sortedSet l ↔ a ∈ l := by
  unfold sortedSet
  rw [List.mem_insertionSort, List.mem_dedup]

theorem sortedSet_pairwise_lt (l : List String) :
    (sortedSet l).Pairwise (fun a b => strLtB a b = true) := by
  have hs : (sortedSet l).Pairwise pyLe := List.sorted_insertionSort pyLe l.dedup
  have hn : (sortedSet l).Pairwise (fun a b : String => a ≠ b) :=
    ((List.perm_insertionSort pyLe l.dedup).nodup_iff).mpr (List.nodup_dedup l)
  exact List.Pairwise.imp₂ (fun a b h1 h2 => strLtB_of_le_of_ne h1 h2) hs hn

/-! ### Matches are substrings of the scanned text -/

theorem mmatch_suffix :
    ∀ (fuel : Nat) (r : Regex) (s t : List Char), t ∈ mmatch fuel r s → t <:+ s
  | 0, _, _, _, h => by simp [mmatch] at h
  | _ + 1, .eps, s, t, h => by
    simp only [mmatch, List.mem_singleton] at h
    exact h ▸ List.suffix_refl s
  | _ + 1, .cls p, [], t, h => by simp [mmatch] at h
  | _ + 1, .cls p, c :: cs, t, h => by
    simp only [mmatch] at h
    split at h
    · simp only [List.mem_singleton] at h
      exact h ▸ ⟨[c], rfl⟩
    · simp at h
  | fuel + 1, .cat a b, s, t, h => by
    simp only [mmatch, List.mem_flatMap] at h
    obtain ⟨u, hu, ht⟩ := h
    exact (mmatch_suffix fuel b u t ht).trans (mmatch_suffix fuel a s u hu)
  | fuel + 1, .alt a b, s, t, h => by
    simp only [mmatch, List.mem_append] at h
    rcases h with h | h
    · exact mmatch_suffix fuel a s t h
    · exact mmatch_suffix fuel b s t h
  | fuel + 1, .star r, s, t, h => by
    simp only [mmatch, List.mem_append, List.mem_flatMap, List.mem_filter,
      List.mem_singleton] at h
    rcases h with ⟨u, ⟨hu, _⟩, ht⟩ | h
    · exact (mmatch_suffix fuel (.star r) u t ht).trans (mmatch_suffix fuel r s u hu)
    · exact h ▸ List.suffix_refl s

theorem infix_of_infix_suffix {t u s : List Char} (h1 : t <:+: u) (h2 : u <:+ s) :
    t <:+: s := by
  obtain ⟨p, q, hpq⟩ := h1
  obtain ⟨w, hw⟩ := h2
  exact ⟨w ++ p, q, by rw [← hw, ← hpq]; simp⟩

theorem infix_extend_cons {t rest : List Char} (c : Char) (h : t <:+: rest) :
    t <:+: c :: rest := by
  obtain ⟨p, q, hpq⟩ := h
  exact ⟨c :: p, q, by rw [← hpq]; simp⟩

theorem findAll_substring :
    ∀ (mf fuel : Nat) (r : Regex) (s t : List Char), t ∈ findAll mf r fuel s → t <:+: s
  | _, 0, _, _, _, h => by simp [findAll] at h
  | _, _ + 1, _, [], _, h => by simp [findAll] at h
  | mf, fuel + 1, r, c :: rest, t, h => by
    simp only [findAll] at h
    cases hh : (mmatch mf r (c :: rest)).head? with
    | none =>
      rw [hh] at h
      exact infix_extend_cons c (findAll_substring mf fuel r rest t h)
    | some s' =>
      rw [hh] at h
      dsimp only at h
      by_cases hk : (c :: rest).length - s'.length = 0
      · rw [if_pos hk] at h
        exact infix_extend_cons c (findAll_substring mf fuel r rest t h)
      · rw [if_neg hk] at h
        simp only [List.mem_cons] at h
        rcases h with rfl | h
        · exact ⟨[], (c :: rest).drop ((c :: rest).length - s'.length),
            by simp [List.take_append_drop]⟩
        · have hs' : s' <:+ c :: rest :=
            mmatch_suffix mf r (c :: rest) s'
              (List.mem_of_mem_head? (by rw [hh]; rfl))
          exact infix_of_infix_suffix (findAll_substring mf fuel r s' t h) hs'

theorem pyFindall_toList {r : Regex} {text u : String} (hu : u ∈ pyFindall r text) :
    u.toList <:+: text.toList := by
  simp only [pyFindall, List.mem_map] at hu
  obtain ⟨l, hl, rfl⟩ := hu
  exact findAll_substring _ _ r text.toList l hl

/-! ### Remaining helper lemmas -/

theorem decodeSegs_eq_none_of_mem {segs : List SubjSeg} {sg : SubjSeg}
    (hx : sg ∈ segs) (hfx : segDecode sg = none) : decodeSegs segs = none := by
  induction segs with
  | nil => cases hx
  | cons a l ih =>
    rcases List.mem_cons.mp hx with rfl | hmem
    · simp [decodeSegs, hfx]
    · cases hfa : segDecode a <;> simp [decodeSegs, hfa, ih hmem]

theorem find?_append_first {α : Type} (p : α → Bool) (pre : List α) (x : α) (post : List α)
    (hpre : ∀ q ∈ pre, p q = false) (hx : p x = true) :
    (pre ++ x :: post).find? p = some x := by
  induction pre with
  | nil => simp [List.find?, hx]
  | cons a l ih =>
    have ha := hpre a (by simp)
    simp only [List.cons_append, List.find?, ha]
    exact ih (fun q hq => hpre q (by simp [hq]))

/-! ### Claim theorems -/

/-- C1: for every input string `t`, `extract_urls t` and `extract_emails t`
are strictly sorted in ascending code point lexicographic order (hence
contain no duplicate string, under exact case-sensitive equality), and
whenever the regex scan finds nothing the result is the empty list rather
than an error. -/
theorem extract_results_sorted_nodup (t : String) :
    (extract_urls t).Pairwise (fun a b => strLtB a b = true) ∧
    (extract_emails t).Pairwise (fun a b => strLtB a b = true) ∧
    (pyFindall URL_REGEX t = [] → extract_urls t = []) ∧
    (pyFindall EMAIL_REGEX t = [] → extract_emails t = []) := by
  refine ⟨sortedSet_pairwise_lt _, sortedSet_pairwise_lt _, fun h => ?_, fun h => ?_⟩
  · show sortedSet ((pyFindall URL_REGEX t).filter _) = []
    rw [h]
    rfl
  · show sortedSet (pyFindall EMAIL_REGEX t) = []
    rw [h]
    rfl

/-- Witness for C1: a concrete text in which neither regex matches, and
both extractors return the empty list. -/
theorem extract_results_sorted_nodup_witness :
    pyFindall URL_REGEX "hello there" = [] ∧ extract_urls "hello there" = [] ∧
    pyFindall EMAIL_REGEX "hello there" = [] ∧ extract_emails "hello there" = [] :=
  ⟨by decide, (extract_results_sorted_nodup "hello there").2.2.1 (by decide),
   by decide, (extract_results_sorted_nodup "hello there").2.2.2 (by decide)⟩

/-- C6: every string returned by `extract_urls` is one of the raw regex
matches, has length strictly greater than 5 and contains a `'.'`; raw
matches failing the length or dot test never reach the result. -/
theorem extract_urls_post_filter (t u : String) (hu : u ∈ extract_urls t) :
    u ∈ pyFindall URL_REGEX t ∧ 5 < u.length ∧ u.toList.contains '.' = true := by
  have h2 : u ∈ (pyFindall URL_REGEX t).filter
      (fun url => url.length > 5 && url.toList.contains '.') :=
    sortedSet_mem.mp hu
  rw [List.mem_filter] at h2
  obtain ⟨hmem, hprop⟩ := h2
  rw [Bool.and_eq_true] at hprop
  exact ⟨hmem, by simpa using hprop.1, hprop.2⟩

/-- Witness for C6 at a concrete text and match. -/
theorem extract_urls_post_filter_witness :
    ("http://a.bc" : String) ∈ pyFindall URL_REGEX "see http://a.bc ok" ∧
    5 < ("http://a.bc" : String).length ∧
    ("http://a.bc" : String).toList.contains '.' = true :=
  extract_urls_post_filter "see http://a.bc ok" "http://a.bc" (by decide)

/-- C9: on the spec's example text, `extract_emails` returns exactly
`["A@B.COM", "a@b.com"]`: both case variants kept, case preserved, sorted
with uppercase before lowercase. -/
theorem extract_emails_case_example :
    extract_emails "Visit https://example.com/page and also http://example.com/page, contact me at a@b.com or A@B.COM" =
      ["A@B.COM", "a@b.com"] := by
  decide

/-- C10: every string returned by either extractor occurs literally as a
contiguous substring of the input text. -/
theorem extract_results_substrings (t u : String) :
    (u ∈ extract_urls t → u.toList <:+: t.toList) ∧
    (u ∈ extract_emails t → u.toList <:+: t.toList) := by
  constructor
  · intro hu
    have h2 : u ∈ (pyFindall URL_REGEX t).filter
        (fun url => url.length > 5 && url.toList.contains '.') :=
      sortedSet_mem.mp hu
    exact pyFindall_toList (List.mem_filter.mp h2).1
  · intro hu
    exact pyFindall_toList (sortedSet_mem.mp hu)

/-- Witness for C10 at a concrete text and extracted email. -/
theorem extract_results_substrings_witness :
    ("x@y.com" : String).toList <:+: ("mail x@y.com now" : String).toList :=
  (extract_results_substrings "mail x@y.com now" "x@y.com").2 (by decide)

/-- C2 counterexample: a Subject header of two segments in which only the
first segment raises (unknown charset) while the second decodes fine; the
claim says the second segment's contribution survives, so the subject
should be `"World"`, but the code yields `""`. -/
theorem decode_subject_segment_counterexample :
    segDecode (SubjSeg.strSeg "World") = some "World" ∧
    decode_subject
        (some [SubjSeg.bytesSeg [72] (some "bogus-charset"), SubjSeg.strSeg "World"]) = "" ∧
    ("" : String) ≠ "World" := by
  decide

/-- C2 amended: subject decoding is all-or-nothing.  If every segment
decodes, the subject is the concatenation of the decoded segments; if any
single segment fails to decode, the whole subject is the empty string (the
successfully decoded segments are discarded too); an absent header also
yields the empty string. -/
theorem decode_subject_all_or_nothing (segs : List SubjSeg) :
    (∀ decoded_parts : List String, decodeSegs segs = some decoded_parts →
      decode_subject (some segs) = String.join decoded_parts) ∧
    ((∃ sg ∈ segs, segDecode sg = none) → decode_subject (some segs) = "") ∧
    decode_subject none = "" := by
  refine ⟨fun decoded_parts h => ?_, fun ⟨sg, hmem, hfail⟩ => ?_, rfl⟩
  · simp [decode_subject, h]
  · simp [decode_subject, decodeSegs_eq_none_of_mem hmem hfail]

/-- Witness for C2 amended: one fully decodable subject joins all
segments; one subject with a single bad segment collapses to `""`. -/
theorem decode_subject_all_or_nothing_witness :
    decode_subject (some [SubjSeg.strSeg "Hello ", SubjSeg.bytesSeg [87] none]) =
      String.join ["Hello ", "W"] ∧
    decode_subject (some [SubjSeg.bytesSeg [104, 105] (some "utf-99"),
        SubjSeg.strSeg "tail"]) = "" :=
  ⟨(decode_subject_all_or_nothing _).1 ["Hello ", "W"] (by decide),
   (decode_subject_all_or_nothing _).2.1
     ⟨SubjSeg.bytesSeg [104, 105] (some "utf-99"), by decide, by decide⟩⟩

/-- C5: for a multipart message the Text Resolver returns the decoded
payload of the first part (in walk order) whose content type is
`text/plain` and whose disposition does not contain `attachment`; when no
part qualifies (e.g. only a `text/html` part) it returns `""`. -/
theorem get_email_body_multipart (fromH : String) (subjH : Option (List SubjSeg)) :
    (∀ parts : List MsgPart, (∀ q ∈ parts, isPlainNonAttachment q = false) →
      get_email_body ⟨fromH, subjH, .multi parts⟩ = "") ∧
    (∀ (pre : List MsgPart) (part : MsgPart) (post : List MsgPart),
      (∀ q ∈ pre, isPlainNonAttachment q = false) →
      isPlainNonAttachment part = true →
      get_email_body ⟨fromH, subjH, .multi (pre ++ part :: post)⟩ =
        decodePayload part.charset part.payload) := by
  constructor
  · intro parts h
    have hnone : parts.find? isPlainNonAttachment = none :=
      List.find?_eq_none.mpr (fun x hx => by simp [h x hx])
    simp [get_email_body, hnone]
  · intro pre part post hpre hpart
    simp [get_email_body, find?_append_first isPlainNonAttachment pre part post hpre hpart]

/-- Witness for C5: a multipart message with only a `text/html` part
resolves to `""`; one with an HTML part followed by a plain part resolves
to the plain part's decoded payload. -/
theorem get_email_body_multipart_witness :
    get_email_body ⟨"a <x@y.zz>", none, .multi [⟨"text/html", none, none, [60, 112, 62]⟩]⟩
      = "" ∧
    get_email_body ⟨"a <x@y.zz>", none,
        .multi [⟨"text/html", none, none, [60, 112, 62]⟩,
                ⟨"text/plain", none, some "utf-8", [72, 105]⟩]⟩ =
      decodePayload (some "utf-8") [72, 105] :=
  ⟨(get_email_body_multipart "a <x@y.zz>" none).1
      [⟨"text/html", none, none, [60, 112, 62]⟩] (by decide),
   (get_email_body_multipart "a <x@y.zz>" none).2
      [⟨"text/html", none, none, [60, 112, 62]⟩]
      ⟨"text/plain", none, some "utf-8", [72, 105]⟩ [] (by decide) (by decide)⟩

/-- C7: when the resolved body strips to empty and the decoded subject
strips to empty, the per-message unit takes the no-text path: it sends the
fixed "Error: No Text Provided" reply with the fixed instructional body and
marks the message seen, and the result does not depend on the extraction
functions at all (they are never invoked). -/
theorem no_text_error_path (eu ee : String → List String) (uid : Nat) (m : EmailMsg)
    (hbody : pyStrip (get_email_body m) = "")
    (hsubj : pyStrip (decode_subject m.subjectH) = "") :
    processMessageWith eu ee uid m =
      [Event.send (parseSender m.fromH) "Error: No Text Provided" noTextBody,
       Event.markSeen uid] := by
  simp only [processMessageWith, hbody, hsubj]
  rfl

/-- Witness for C7: a message with an empty body and whitespace-only
subject, run with deliberately nonempty fake extractors, still produces
exactly the fixed error reply and the seen marker. -/
theorem no_text_error_path_witness :
    processMessageWith (fun _ => ["http://spurious.example"]) (fun _ => ["spurious@x.yz"]) 7
        ⟨"Alice <alice@example.com>", some [SubjSeg.strSeg "  "],
          .single ⟨"text/plain", none, none, []⟩⟩ =
      [Event.send "alice@example.com" "Error: No Text Provided" noTextBody,
       Event.markSeen 7] :=
  no_text_error_path (fun _ => ["http://spurious.example"]) (fun _ => ["spurious@x.yz"]) 7
    ⟨"Alice <alice@example.com>", some [SubjSeg.strSeg "  "],
      .single ⟨"text/plain", none, none, []⟩⟩ (by decide) (by decide)

/-- C4: every message the per-message unit runs to completion issues
exactly one reply-send request followed by exactly one seen-marking
request, in that order, and nothing else: both happen, and the seen
marking comes after the reply send. -/
theorem reply_then_mark_seen (uid : Nat) (m : EmailMsg) :
    ∃ subj body, processMessage uid m =
      [Event.send (parseSender m.fromH) subj body, Event.markSeen uid] := by
  simp only [processMessage, processMessageWith]
  split <;> split <;> exact ⟨_, _, rfl⟩

/-- C8: with both extraction lists empty, the composed reply body is the
fixed "nothing found" text with the usage tip, it contains the phrase
"No URLs or email addresses were found", and every composed body (empty or
not) ends with the same closing signature line. -/
theorem compose_body_nothing_found :
    compose_body [] [] =
      "Hello from your Extractor Bot!\n\nHere are the extracted items from your text:\n\n\nNo URLs or email addresses were found in your text.\n\nTips: Ensure URLs start with http:// or https:// (or www.) and email addresses are in standard format like user@domain.com." ++ closingSig ∧
    isSubstrOf "No URLs or email addresses were found".toList (compose_body [] []).toList
      = true ∧
    ∀ extracted_urls extracted_emails : List String, ∃ pre : String,
      compose_body extracted_urls extracted_emails = pre ++ closingSig := by
  refine ⟨by decide, by decide, fun us es => ⟨_, rfl⟩⟩

/-- A minimal plain-text message from Ann: empty body, subject `"hi"`. -/
def msgA : EmailMsg :=
  ⟨"Ann <ann@example.com>", some [SubjSeg.strSeg "hi"],
    .single ⟨"text/plain", none, none, []⟩⟩

/-- A minimal plain-text message from Bob: empty body, subject `"yo"`. -/
def msgB : EmailMsg :=
  ⟨"Bob <bob@example.com>", some [SubjSeg.strSeg "yo"],
    .single ⟨"text/plain", none, none, []⟩⟩

/-- C3 counterexample: in a two-message batch in which the first message's
seen-marking collaborator call raises, the second message is never
processed — neither its reply-send nor its seen-marking occurs — because
the loop has no per-message handler and the exception aborts the whole
run.  A failure-free run of the same batch handles both messages. -/
theorem batch_abort_counterexample :
    process_emails (fun uid => uid == 1) [(1, msgA), (2, msgB)] =
      [Event.send "ann@example.com" "Your Extracted URLs & Emails" (compose_body [] [])] ∧
    Event.markSeen 2 ∉ process_emails (fun uid => uid == 1) [(1, msgA), (2, msgB)] ∧
    process_emails (fun _ => false) [(1, msgA), (2, msgB)] =
      [Event.send "ann@example.com" "Your Extracted URLs & Emails" (compose_body [] []),
       Event.markSeen 1,
       Event.send "bob@example.com" "Your Extracted URLs & Emails" (compose_body [] []),
       Event.markSeen 2] := by
  decide

/-- C3 amended: an unexpected per-message failure aborts the batch — the
messages after the failing one are not processed — but it does not undo or
affect the effects of messages already completed: the event sequence is
exactly the completed messages' full event lists, followed by the failing
message's reply-send (issued before its failed seen-marking), and nothing
else. -/
theorem batch_failure_aborts (sf : Nat → Bool) (pre : List (Nat × EmailMsg))
    (uid : Nat) (m : EmailMsg) (post : List (Nat × EmailMsg))
    (hpre : ∀ x ∈ pre, sf x.1 = false) (hf : sf uid = true) :
    process_emails sf (pre ++ (uid, m) :: post) =
      pre.flatMap (fun x => processMessage x.1 x.2) ++ (processMessage uid m).dropLast := by
  induction pre with
  | nil => simp [process_emails, hf]
  | cons a l ih =>
    obtain ⟨auid, am⟩ := a
    have ha : sf auid = false := hpre (auid, am) (by simp)
    simp only [List.cons_append, process_emails, ha, Bool.false_eq_true, if_false,
      List.flatMap_cons, List.append_assoc, List.append_eq]
    rw [ih (fun x hx => hpre x (by simp [hx]))]

/-- Witness for C3 amended at a concrete batch: one completed message,
then the failing one, then one never-processed message. -/
theorem batch_failure_aborts_witness :
    process_emails (fun uid => uid == 1) [(2, msgB), (1, msgA), (3, msgA)] =
      [(2, msgB)].flatMap (fun x => processMessage x.1 x.2) ++
        (processMessage 1 msgA).dropLast :=
  batch_failure_aborts (fun uid => uid == 1) [(2, msgB)] 1 msgA [(3, msgA)]
    (by decide) (by decide)

end UrlEmailExtractor
